import Mathlib

/-! Verification of the news-aggregator pipeline
(`tools/aggregate_and_translate.py`) against its specification.

The pipeline is shallowly embedded: every stage of `main` (fetch loop,
normalisation, deduplication, sorting, translation, catalog enrichment,
serialisation) is a Lean function translated from the Python source.
External collaborators (the feed parser, the date parser `dateutil`,
`langdetect`, the LibreTranslate HTTP endpoint, the wall clock) are
passed in as explicit inputs or oracle functions.
-/

set_option maxRecDepth 40000

namespace Agg

/-! Python string primitives used by the source -/

/-- Python `str.strip()` whitespace class (ASCII subset). -/
def isPySpace (c : Char) : Bool :=
  c = ' ' || c = '\t' || c = '\n' || c = '\r' || c = '\x0b' || c = '\x0c'

/-- Python `s.strip()`. -/
def pyStrip (s : String) : String :=
  ⟨((s.data.dropWhile isPySpace).reverse.dropWhile isPySpace).reverse⟩

/-- Python truthiness-based `a or b` on strings (`""` is falsy). -/
def pyOr (a b : String) : String :=
  if a = "" then b else a

/-- ASCII lowercasing of one character (`str.lower()` on ASCII). -/
def lowerChar (c : Char) : Char :=
  if 65 ≤ c.toNat ∧ c.toNat ≤ 90 then Char.ofNat (c.toNat + 32) else c

/-- Python `s.lower()` (ASCII fragment). -/
def pyLower (s : String) : String := ⟨s.data.map lowerChar⟩

/-- Needle-is-leading-segment test on character lists. -/
def leadsWith : List Char → List Char → Bool
  | _, [] => true
  | [], _ :: _ => false
  | h :: t, a :: b => a == h && leadsWith t b

/-- Python `needle in hay` substring containment. -/
def containsSub (needle : List Char) : List Char → Bool
  | [] => leadsWith [] needle
  | c :: t => leadsWith (c :: t) needle || containsSub needle t

/-- The characters after the first occurrence of `sep`, if any. -/
def afterSep (sep : List Char) : List Char → Option (List Char)
  | [] => if sep = [] then some [] else none
  | c :: t => if leadsWith (c :: t) sep then some ((c :: t).drop sep.length)
              else afterSep sep t

/-- Python `str.split()` word collection (maximal non-whitespace runs). -/
def wordsAux : List Char → List Char → List (List Char)
  | [], acc => if acc = [] then [] else [acc.reverse]
  | c :: t, acc =>
    if isPySpace c then (if acc = [] then wordsAux t [] else acc.reverse :: wordsAux t [])
    else wordsAux t (c :: acc)

/-- Python `a or b` where `a` is `None`-or-string and the result is a string:
`None` and `""` are falsy. -/
def orSent (o : Option String) (d : String) : String :=
  match o with
  | some s => if s = "" then d else s
  | none => d

/-- Python `a or b` on optional strings (`None` and `""` falsy). -/
def pyOrOpt (a b : Option String) : Option String :=
  match a with
  | some s => if s = "" then b else a
  | none => b

/-! SHA-256 (`hashlib.sha256(...).hexdigest()`), over UTF-8 bytes -/

/-- UTF-8 encoding of a single scalar value, as byte values. -/
def encChar (c : Char) : List Nat :=
  let v := c.toNat
  if v < 128 then [v]
  else if v < 2048 then [192 + v / 64, 128 + v % 64]
  else if v < 65536 then [224 + v / 4096, 128 + (v / 64) % 64, 128 + v % 64]
  else [240 + v / 262144, 128 + (v / 4096) % 64, 128 + (v / 64) % 64, 128 + v % 64]

/-- Python `s.encode("utf-8")` as a list of byte values. -/
def utf8Bytes (s : String) : List Nat :=
  s.data.foldr (fun c acc => encChar c ++ acc) []

def add32 (a b : Nat) : Nat := (a + b) % 4294967296

def rotr32 (x n : Nat) : Nat := (x >>> n) ||| ((x <<< (32 - n)) % 4294967296)

def bsig0 (x : Nat) : Nat := rotr32 x 2 ^^^ rotr32 x 13 ^^^ rotr32 x 22
def bsig1 (x : Nat) : Nat := rotr32 x 6 ^^^ rotr32 x 11 ^^^ rotr32 x 25
def ssig0 (x : Nat) : Nat := rotr32 x 7 ^^^ rotr32 x 18 ^^^ (x >>> 3)
def ssig1 (x : Nat) : Nat := rotr32 x 17 ^^^ rotr32 x 19 ^^^ (x >>> 10)
def chF (x y z : Nat) : Nat := (x &&& y) ^^^ ((x ^^^ 4294967295) &&& z)
def majF (x y z : Nat) : Nat := (x &&& y) ^^^ (x &&& z) ^^^ (y &&& z)

def K256 : List Nat :=
  [1116352408, 1899447441, 3049323471, 3921009573, 961987163,
   1508970993, 2453635748, 2870763221, 3624381080, 310598401,
   607225278, 1426881987, 1925078388, 2162078206, 2614888103,
   3248222580, 3835390401, 4022224774, 264347078, 604807628,
   770255983, 1249150122, 1555081692, 1996064986, 2554220882,
   2821834349, 2952996808, 3210313671, 3336571891, 3584528711,
   113926993, 338241895, 666307205, 773529912, 1294757372,
   1396182291, 1695183700, 1986661051, 2177026350, 2456956037,
   2730485921, 2820302411, 3259730800, 3345764771, 3516065817,
   3600352804, 4094571909, 275423344, 430227734, 506948616,
   659060556, 883997877, 958139571, 1322822218, 1537002063,
   1747873779, 1955562222, 2024104815, 2227730452, 2361852424,
   2428436474, 2756734187, 3204031479, 3329325298]

def H256 : List Nat :=
  [1779033703, 3144134277, 1013904242, 2773480762,
   1359893119, 2600822924, 528734635, 1541459225]

/-- Big-endian 8-byte encoding of a (bit-)length. -/
def lenBytes8 (n : Nat) : List Nat :=
  (List.range 8).map (fun i => (n >>> ((7 - i) * 8)) % 256)

/-- SHA-256 message padding. -/
def padMsg (msg : List Nat) : List Nat :=
  let z := (119 - msg.length % 64) % 64
  msg ++ 128 :: List.replicate z 0 ++ lenBytes8 (msg.length * 8)

/-- Group bytes into big-endian 32-bit words. -/
def toWords : List Nat → List Nat
  | b0 :: b1 :: b2 :: b3 :: rest => (((b0 * 256 + b1) * 256 + b2) * 256 + b3) :: toWords rest
  | _ => []

/-- Split a byte list into 64-byte chunks (fuel-driven). -/
def split64 : Nat → List Nat → List (List Nat)
  | _, [] => []
  | 0, _ => []
  | fuel + 1, l => l.take 64 :: split64 fuel (l.drop 64)

/-- Extend the 16-word schedule by one word `fuel` times. -/
def schedAux : Nat → List Nat → List Nat
  | 0, w => w
  | k + 1, w =>
    let n := w.length
    schedAux k (w ++ [add32 (add32 (ssig1 (w.getD (n - 2) 0)) (w.getD (n - 7) 0))
                        (add32 (ssig0 (w.getD (n - 15) 0)) (w.getD (n - 16) 0))])

/-- One SHA-256 round on the 8-word working state. -/
def comp1 (st : List Nat) (kw : Nat × Nat) : List Nat :=
  match st with
  | [a, b, c, d, e, f, g, h] =>
    let t1 := add32 h (add32 (bsig1 e) (add32 (chF e f g) (add32 kw.1 kw.2)))
    let t2 := add32 (bsig0 a) (majF a b c)
    [add32 t1 t2, a, b, c, add32 d t1, e, f, g]
  | _ => st

/-- Compress a 16-word chunk into the hash state. -/
def compress (h : List Nat) (chunk : List Nat) : List Nat :=
  let w := schedAux 48 chunk
  let st := (K256.zip w).foldl comp1 h
  (h.zip st).map (fun p => add32 p.1 p.2)

def sha256Words (msg : List Nat) : List Nat :=
  let padded := padMsg msg
  (split64 (padded.length) padded).foldl (fun h c => compress h (toWords c)) H256

def hexDigit (n : Nat) : Char :=
  if n < 10 then Char.ofNat (48 + n) else Char.ofNat (87 + n)

/-- Lowercase 8-hex-digit rendering of a 32-bit word. -/
def hex8 (n : Nat) : List Char :=
  (List.range 8).map (fun i => hexDigit ((n >>> ((7 - i) * 4)) % 16))

/-- Model of `hashlib.sha256(s.encode("utf-8")).hexdigest()`. -/
def sha256Hex (s : String) : String :=
  ⟨(sha256Words (utf8Bytes s)).foldr (fun w acc => hex8 w ++ acc) []⟩

/-! Dicts (Python dictionaries of string values, as association lists) -/

abbrev Dict := List (String × String)

/-- Python `d.get(k)` (`None` when absent). -/
def Dict.get? (d : Dict) (k : String) : Option String :=
  (List.find? (fun p => p.1 = k) d).map (fun p => p.2)

/-- Python `d.get(k, "")`. -/
def Dict.getS (d : Dict) (k : String) : String :=
  (Dict.get? d k).getD ""

/-! Feed entries (the feedparser-produced values the source reads) -/

/-- A parsed feed entry as the source consumes it: `getattr(e, f, ...)`
reads are modelled by optional fields, `published_parsed` by an optional
pre-parsed 6-tuple, `tags` by a list of dicts. -/
structure Entry where
  title : Option String := none
  link : Option String := none
  summary : Option String := none
  description : Option String := none
  published : Option String := none
  updated : Option String := none
  created : Option String := none
  published_parsed : Option (Nat × Nat × Nat × Nat × Nat × Nat) := none
  tags : List Dict := []

/-- One parsed feed: optional feed-level title plus its entries. -/
structure Feed where
  title : Option String := none
  entries : List Entry := []

/-- Environment configuration (`TARGET_LANG`, `LT_URL`, `LT_API_KEY`). -/
structure Config where
  targetLang : String := "ja"
  ltUrl : String := ""
  ltApiKey : String := ""

/-! `norm_dt`: timestamp resolution -/

def isLeap (y : Nat) : Bool := (y % 4 == 0 && y % 100 != 0) || y % 400 == 0

def daysInMonth (y m : Nat) : Nat :=
  if m = 2 then (if isLeap y then 29 else 28)
  else if m = 4 ∨ m = 6 ∨ m = 9 ∨ m = 11 then 30 else 31

def pad2 (n : Nat) : String := if n < 10 then "0" ++ toString n else toString n

def pad4 (n : Nat) : String :=
  if n < 10 then "000" ++ toString n
  else if n < 100 then "00" ++ toString n
  else if n < 1000 then "0" ++ toString n
  else toString n

/-- Model of `datetime(*tup[:6], tzinfo=timezone.utc).isoformat()`: `none` when the
tuple is out of range (the `except` branch). -/
def tupleToIso : Nat × Nat × Nat × Nat × Nat × Nat → Option String :=
  fun (y, mo, d, h, mi, s) =>
    if 1 ≤ y ∧ y ≤ 9999 ∧ 1 ≤ mo ∧ mo ≤ 12 ∧ 1 ≤ d ∧ d ≤ daysInMonth y mo ∧
       h ≤ 23 ∧ mi ≤ 59 ∧ s ≤ 59 then
      some (pad4 y ++ "-" ++ pad2 mo ++ "-" ++ pad2 d ++ "T" ++
            pad2 h ++ ":" ++ pad2 mi ++ ":" ++ pad2 s ++ "+00:00")
    else none

/-- One step of the field chain: a field is tried when present and
non-empty; `pd` is the external `dateutil.parser.parse ∘ astimezone`
oracle (`none` = raised). -/
def tryField (pd : String → Option String) (o : Option String) : Option String :=
  match o with
  | some s => if s = "" then none else pd s
  | none => none

/-- The fallback chain of `norm_dt` before the current-time default. -/
def dtChain (pd : String → Option String) (e : Entry) : Option String :=
  tryField pd e.published <|> tryField pd e.updated <|> tryField pd e.created <|>
    e.published_parsed.bind tupleToIso

/-- The function `norm_dt`: resolve an ISO-8601 UTC string, defaulting to the current
time `now`. -/
def norm_dt (pd : String → Option String) (now : String) (e : Entry) : String :=
  (dtChain pd e).getD now

/-- Whether `norm_dt` resolves without the current-time fallback. -/
def resolvesDate (pd : String → Option String) (e : Entry) : Bool :=
  (dtChain pd e).isSome

/-! `clamp`, `extract_category`, `estimate_reading_time` -/

/-- The function `clamp`: strip, then truncate to `n` with a one-char ellipsis. -/
def clamp (s : String) (n : Nat) : String :=
  let t := pyStrip s
  if t.length ≤ n then t else ⟨t.data.take (n - 1)⟩ ++ "…"

/-- Model of `k in tag and tag[k]`: the value of a tag key when present and truthy. -/
def tagVal (tag : Dict) (k : String) : Option String :=
  match Dict.get? tag k with
  | some v => if v = "" then none else some v
  | none => none

/-- The function `extract_category`: first tag's `term` or `label`, else `"general"`. -/
def extract_category (e : Entry) : String :=
  match e.tags with
  | [] => "general"
  | tag :: _ =>
    match tagVal tag "term" <|> tagVal tag "label" with
    | some v => ⟨v.data.take 64⟩
    | none => "general"

/-- Python `round(n / d)` for naturals (`d > 0`): ties to even. -/
def pyRoundDiv (n d : Nat) : Nat :=
  let q := n / d
  let r := n % d
  if 2 * r < d then q
  else if d < 2 * r then q + 1
  else if q % 2 = 0 then q else q + 1

/-- The function `estimate_reading_time`: `max(1, round(len(text.split()) / 200))`. -/
def estimate_reading_time (text : String) : Nat :=
  max 1 (pyRoundDiv (wordsAux text.data []).length 200)

/-! The normalised item and the dedup identity -/

/-- The raw-item dict built in `main`'s fetch loop (exactly these six keys). -/
structure RawItem where
  source : String := ""
  title : String := ""
  summary : String := ""
  link : String := ""
  published : String := ""
  category : String := "general"
deriving DecidableEq

/-- The dict literal of `main` (lines 208–215), with its key order. -/
def RawItem.toDict (it : RawItem) : Dict :=
  [("source", it.source), ("title", it.title), ("summary", it.summary),
   ("link", it.link), ("published", it.published), ("category", it.category)]

/-- The base string `item.get("link") or item.get("id") or (item.get("title","") + item.get("source",""))`. -/
def identityBase (item : Dict) : String :=
  orSent (Dict.get? item "link")
    (orSent (Dict.get? item "id") (Dict.getS item "title" ++ Dict.getS item "source"))

/-- The function `identity`: the dedup hash of an item dict. -/
def identity (item : Dict) : String :=
  sha256Hex (identityBase item)

/-- Normalisation of one entry inside the fetch loop. -/
def normalize (pd : String → Option String) (now : String) (src : String) (e : Entry) : RawItem :=
  { source := src
  , title := clamp (e.title.getD "") 220
  , summary := clamp (pyOr (e.summary.getD "") (e.description.getD "")) 1200
  , link := e.link.getD ""
  , published := norm_dt pd now e
  , category := extract_category e }

/-- The fetch loop (lines 197–219): each URL paired with its parse result;
`none` = the `except` branch (network error / malformed feed), which
contributes no items.  The source name is the feed title when present,
else the URL. -/
def collect (pd : String → Option String) (now : String)
    (feeds : List (String × Option Feed)) : List RawItem :=
  feeds.foldr
    (fun p acc =>
      match p.2 with
      | none => acc
      | some f => f.entries.map (normalize pd now (f.title.getD p.1)) ++ acc)
    []

/-! Deduplication (lines 222–229) -/

def dedupAux (seen : List String) : List RawItem → List RawItem
  | [] => []
  | it :: rest =>
    let key := identity it.toDict
    if key ∈ seen then dedupAux seen rest
    else it :: dedupAux (key :: seen) rest

def dedup (l : List RawItem) : List RawItem := dedupAux [] l

/-! Sorting (line 232): Python's stable sort, descending by `published` -/

/-- Stable descending insertion: `x` goes before the first element whose
key is not greater than `x`'s (so equal keys keep insertion order). -/
def insDesc (x : RawItem) : List RawItem → List RawItem
  | [] => [x]
  | y :: ys => if x.published < y.published then y :: insDesc x ys else x :: y :: ys

/-- Model of `uniq.sort(key=lambda x: x.get("published",""), reverse=True)`:
the unique stable descending sort by the `published` string. -/
def sortDesc : List RawItem → List RawItem
  | [] => []
  | x :: xs => insDesc x (sortDesc xs)

/-! Translation (`maybe_translate`, lines 59–78, and the loop 235–247) -/

/-- The function `maybe_translate`.  `detect` is the langdetect oracle (`none` = raised);
`api` is the LibreTranslate POST oracle: `none` = exception or non-OK
status, `some none` = OK without `translatedText`, `some (some t)` = OK
with `translatedText = t`.  The returned boolean records whether the
network call was made. -/
def maybe_translate (cfg : Config) (detect : String → Option String)
    (api : String → Option (Option String)) (text : String) (srcHint : Option String) :
    String × Option String × Bool :=
  if text = "" || cfg.ltUrl = "" then (text, none, false)
  else
    let lang := pyOrOpt srcHint (detect text)
    if lang = some cfg.targetLang then (text, lang, false)
    else
      match api text with
      | some (some t) => (t, lang, true)
      | some none => (text, lang, true)
      | none => (text, lang, true)

/-- An item after the translation loop added its three keys. -/
structure TransItem where
  source : String := ""
  title : String := ""
  summary : String := ""
  link : String := ""
  published : String := ""
  category : String := "general"
  title_translated : String := ""
  summary_translated : String := ""
  lang_detected : Option String := none
deriving DecidableEq

/-- One iteration of the translation loop (lines 236–247). -/
def translateItem (cfg : Config) (detect : String → Option String)
    (api : String → Option (Option String)) (it : RawItem) : TransItem :=
  let r1 := maybe_translate cfg detect api it.title none
  let r2 := maybe_translate cfg detect api it.summary r1.2.1
  { source := it.source, title := it.title, summary := it.summary, link := it.link
  , published := it.published, category := it.category
  , title_translated := r1.1, summary_translated := r2.1
  , lang_detected := pyOrOpt r1.2.1 r2.2.1 }

/-! Catalog (`load_source_catalog`, `enrich_from_catalog`) -/

/-- One CSV row of `data/news_sources.csv` (the consumed columns). -/
structure Row where
  name : String := ""
  country : String := ""
  continent : String := ""
  language : String := ""
  website_url : String := ""
deriving DecidableEq

abbrev AListRow := List (String × Row)

/-- Python dict lookup on the modelled map. -/
def lookupA (m : AListRow) (k : String) : Option Row :=
  (List.find? (fun p => p.1 = k) m).map (fun p => p.2)

/-- Python dict assignment `m[k] = v`: overwrite in place or append. -/
def insertA (m : AListRow) (k : String) (v : Row) : AListRow :=
  if List.any m (fun p => p.1 = k) then
    List.map (fun p => if p.1 = k then (k, v) else p) m
  else m ++ [(k, v)]

/-- Model of `urlparse(url).netloc.lower()`: host part after `//`, up to `/?#`. -/
def pyNetloc (url : String) : String :=
  let delim : Char → Bool := fun c => c ≠ '/' && c ≠ '?' && c ≠ '#'
  match afterSep "://".data url.data with
  | some r => ⟨(r.takeWhile delim).map lowerChar⟩
  | none =>
    if leadsWith url.data "//".data then ⟨((url.data.drop 2).takeWhile delim).map lowerChar⟩
    else ""

/-- The function `load_source_catalog`: `none` = the CSV file does not exist.  Builds
the `(domain_map, name_map)` pair in row order. -/
def load_source_catalog : Option (List Row) → AListRow × AListRow
  | none => ([], [])
  | some rows =>
    rows.foldl
      (fun acc row =>
        let name := pyStrip row.name
        if name = "" then acc
        else
          let nm := insertA acc.2 (pyLower name) row
          let site := pyStrip row.website_url
          if site = "" then (acc.1, nm)
          else
            let d := pyNetloc site
            if d = "" then (acc.1, nm) else (insertA acc.1 d row, nm))
      ([], [])

/-- Model of `(row.get(c) or "").strip() or None`. -/
def stripOrNone (s : String) : Option String :=
  let t := pyStrip s
  if t = "" then none else some t

/-- The `(country, continent, language, name)` quadruple of a matched row. -/
def rowResult (row : Row) : Option String × Option String × Option String × Option String :=
  (stripOrNone row.country, stripOrNone row.continent,
   stripOrNone row.language, stripOrNone row.name)

/-- The function `enrich_from_catalog`: domain match, then exact lowercased-name match,
then first substring match in map order, else four `None`s. -/
def enrich_from_catalog (source_name link_url : String) (domain_map name_map : AListRow) :
    Option String × Option String × Option String × Option String :=
  let d := pyNetloc link_url
  match (if d = "" then none else lookupA domain_map d) with
  | some row => rowResult row
  | none =>
    let key := pyLower (pyStrip source_name)
    match lookupA name_map key with
    | some row => rowResult row
    | none =>
      match List.find? (fun p => p.1 ≠ "" && containsSub p.1.data key.data) name_map with
      | some p => rowResult p.2
      | none => (none, none, none, none)

/-! Formatting (lines 250–283) and serialisation (lines 285–293) -/

/-- One element of the output `items` array (the Base44 schema dict). -/
structure OutItem where
  title : String := ""
  title_translated : String := ""
  summary : String := ""
  summary_translated : String := ""
  link : String := ""
  source_name : String := ""
  published : String := ""
  language : String := "unknown"
  country : String := "不明"
  continent : String := "不明"
  category : String := "general"
  reading_time_minutes : Nat := 1
deriving DecidableEq

/-- One iteration of the formatting loop. -/
def formatItem (domain_map name_map : AListRow) (it : TransItem) : OutItem :=
  let e := enrich_from_catalog it.source it.link domain_map name_map
  { title := it.title
  , title_translated := pyOr it.title_translated it.title
  , summary := it.summary
  , summary_translated := pyOr it.summary_translated it.summary
  , link := it.link
  , source_name := orSent e.2.2.2 it.source
  , published := it.published
  , language := orSent e.2.2.1 (orSent it.lang_detected "unknown")
  , country := orSent e.1 "不明"
  , continent := orSent e.2.1 "不明"
  , category := it.category
  , reading_time_minutes := estimate_reading_time (pyOr it.summary_translated (pyOr it.summary it.title)) }

/-- The emitted JSON document. -/
structure FeedDocument where
  generated_at : String := ""
  target_lang : String := "ja"
  count : Nat := 0
  items : List OutItem := []
deriving DecidableEq

/-- Document assembly (lines 285–290): `count` from the full formatted
list, `items` truncated to 1000. -/
def serialize (cfg : Config) (now : String) (formatted : List OutItem) : FeedDocument :=
  { generated_at := now
  , target_lang := cfg.targetLang
  , count := formatted.length
  , items := formatted.take 1000 }

/-- The pipeline tail after deduplication: sort, translate, format, emit. -/
def emitStage (cfg : Config) (detect : String → Option String)
    (api : String → Option (Option String)) (domain_map name_map : AListRow)
    (now : String) (uniq : List RawItem) : FeedDocument :=
  serialize cfg now
    (((sortDesc uniq).map (translateItem cfg detect api)).map (formatItem domain_map name_map))

/-- The whole of `main` on already-fetched inputs: `pd` is the date-parse
oracle, `detect` the language-detection oracle, `api` the translation
endpoint, `now` the run's wall-clock ISO string, `feeds` the URL/parse
pairs, `catalog` the CSV rows (or `none` when the file is missing). -/
def pipeline (cfg : Config) (pd : String → Option String) (detect : String → Option String)
    (api : String → Option (Option String)) (now : String)
    (feeds : List (String × Option Feed)) (catalog : Option (List Row)) : FeedDocument :=
  let maps := load_source_catalog catalog
  emitStage cfg detect api maps.1 maps.2 now (dedup (collect pd now feeds))

/-! Concrete inputs used by witnesses and counterexamples -/

/-- Oracle answering `none` everywhere (raised / failed external calls). -/
def noParse : String → Option String := fun _ => none

def noApi : String → Option (Option String) := fun _ => none

/-- A batch of `n` raw items with ascending `published` keys and distinct
links, used to instantiate size hypotheses. -/
def mkItems (n : Nat) : List RawItem :=
  (List.range n).map (fun i =>
    { source := "s", title := "t", summary := "", link := "http://x/" ++ toString i
    , published := pad4 i, category := "general" })

/-! Lemmas about the embedded stages -/

theorem string_length_data (s : String) : s.length = s.data.length := rfl

theorem string_mk_length (l : List Char) : (⟨l⟩ : String).length = l.length := rfl

theorem identity_toDict_eq (it : RawItem) :
    identity it.toDict = sha256Hex (if it.link = "" then it.title ++ it.source else it.link) := by
  simp only [identity, identityBase, RawItem.toDict, Dict.get?, Dict.getS, List.find?, orSent]
  by_cases h : it.link = "" <;> simp [h]

theorem enrich_from_catalog_empty (source_name link_url : String) :
    enrich_from_catalog source_name link_url [] [] = (none, none, none, none) := by
  simp [enrich_from_catalog, lookupA, List.find?]

theorem published_formatItem (dm nm : AListRow) (it : TransItem) :
    (formatItem dm nm it).published = it.published := rfl

theorem published_translateItem (cfg : Config) (detect : String → Option String)
    (api : String → Option (Option String)) (it : RawItem) :
    (translateItem cfg detect api it).published = it.published := rfl

theorem length_insDesc (x : RawItem) (l : List RawItem) :
    (insDesc x l).length = l.length + 1 := by
  induction l with
  | nil => rfl
  | cons y ys ih =>
    simp only [insDesc]
    by_cases h : x.published < y.published <;> simp [h, ih]

theorem length_sortDesc (l : List RawItem) : (sortDesc l).length = l.length := by
  induction l with
  | nil => rfl
  | cons x xs ih => simp [sortDesc, length_insDesc, ih]

theorem mem_insDesc {z x : RawItem} {l : List RawItem} :
    z ∈ insDesc x l ↔ z = x ∨ z ∈ l := by
  induction l with
  | nil => simp [insDesc]
  | cons y ys ih =>
    simp only [insDesc]
    by_cases h : x.published < y.published
    · rw [if_pos h]
      simp only [List.mem_cons, ih]
      tauto
    · rw [if_neg h]
      simp only [List.mem_cons]

/-- The sort invariant: descending (non-strict) order of `published`. -/
def DescBy (l : List RawItem) : Prop :=
  l.Pairwise (fun a b => ¬ a.published < b.published)

theorem pairwise_insDesc {x : RawItem} {l : List RawItem} (h : DescBy l) :
    DescBy (insDesc x l) := by
  induction l with
  | nil => simp [DescBy, insDesc]
  | cons y ys ih =>
    rw [DescBy, List.pairwise_cons] at h
    simp only [insDesc]
    by_cases hc : x.published < y.published
    · rw [if_pos hc, DescBy, List.pairwise_cons]
      refine ⟨fun z hz => ?_, ih h.2⟩
      rcases mem_insDesc.mp hz with rfl | hz
      · exact fun hlt => absurd hc (lt_asymm hlt)
      · exact h.1 z hz
    · rw [if_neg hc, DescBy, List.pairwise_cons]
      refine ⟨fun z hz => ?_, List.pairwise_cons.mpr h⟩
      rcases List.mem_cons.mp hz with rfl | hz
      · exact hc
      · exact not_lt.mpr ((not_lt.mp (h.1 z hz)).trans (not_lt.mp hc))

theorem pairwise_sortDesc (l : List RawItem) : DescBy (sortDesc l) := by
  induction l with
  | nil => simp [DescBy, sortDesc]
  | cons x xs ih => exact pairwise_insDesc ih

/-- Stability of one insertion: elements with a given `published` key are
preserved in order; `x` is consed in front when it carries that key. -/
theorem filter_insDesc (x : RawItem) (l : List RawItem) (p : String) :
    (insDesc x l).filter (fun z => z.published == p) =
      if x.published = p then x :: l.filter (fun z => z.published == p)
      else l.filter (fun z => z.published == p) := by
  induction l with
  | nil =>
    by_cases h : x.published = p <;> simp [insDesc, List.filter_cons, beq_iff_eq, h]
  | cons y ys ih =>
    simp only [insDesc]
    by_cases hc : x.published < y.published
    · rw [if_pos hc]
      by_cases hx : x.published = p
      · have hy : ¬ y.published = p := by
          subst hx
          exact fun hyp => absurd hc (by rw [hyp]; exact lt_irrefl _)
        simp [List.filter_cons, hx, hy, ih]
      · by_cases hy : y.published = p <;> simp [List.filter_cons, hx, hy, ih]
    · rw [if_neg hc]
      by_cases hx : x.published = p <;> simp [List.filter_cons, hx]

/-- Stability of the whole sort: each `published` class keeps its
pre-sort relative order. -/
theorem filter_sortDesc (l : List RawItem) (p : String) :
    (sortDesc l).filter (fun z => z.published == p) = l.filter (fun z => z.published == p) := by
  induction l with
  | nil => rfl
  | cons x xs ih =>
    simp only [sortDesc, filter_insDesc, List.filter_cons]
    by_cases hx : x.published = p <;> simp [hx, ih]

/-! Dedup characterisation: for a fixed identity value, the survivors of
`dedup` are exactly the first-encountered item of that identity. -/

theorem dedupAux_filter_of_mem {h : String} {seen : List String} (hs : h ∈ seen)
    (l : List RawItem) :
    (dedupAux seen l).filter (fun z => identity z.toDict == h) = [] := by
  induction l generalizing seen with
  | nil => rfl
  | cons it rest ih =>
    simp only [dedupAux]
    by_cases hk : identity it.toDict ∈ seen
    · rw [if_pos hk]
      exact ih hs
    · rw [if_neg hk]
      have hne : ¬ identity it.toDict = h := fun he => hk (he ▸ hs)
      rw [List.filter_cons]
      simp only [beq_iff_eq, hne, if_neg, decide_eq_true_eq]
      simpa using ih (List.mem_cons_of_mem (identity it.toDict) hs)

theorem dedupAux_filter_of_not_mem {h : String} {seen : List String} (hs : h ∉ seen)
    (l : List RawItem) :
    (dedupAux seen l).filter (fun z => identity z.toDict == h) =
      (l.filter (fun z => identity z.toDict == h)).take 1 := by
  induction l generalizing seen with
  | nil => rfl
  | cons it rest ih =>
    simp only [dedupAux]
    by_cases hk : identity it.toDict ∈ seen
    · rw [if_pos hk]
      have hne : ¬ identity it.toDict = h := fun he => hs (he ▸ hk)
      rw [List.filter_cons]
      simp only [beq_iff_eq, hne, if_neg, decide_eq_true_eq]
      exact ih hs
    · rw [if_neg hk]
      by_cases he : identity it.toDict = h
      · subst he
        have hz := @dedupAux_filter_of_mem (identity it.toDict)
          (identity it.toDict :: seen) (List.mem_cons_self _ _) rest
        rw [List.filter_cons, List.filter_cons]
        simp [hz]
      · rw [List.filter_cons, List.filter_cons]
        simp only [beq_iff_eq, he, if_neg, decide_eq_true_eq]
        have hs2 : h ∉ identity it.toDict :: seen := by
          intro hmem
          rcases List.mem_cons.mp hmem with rfl | hmem
          · exact he rfl
          · exact hs hmem
        exact ih hs2

/-- The stage `dedup` keeps, for every identity value, exactly the first item of the
input carrying it. -/
theorem dedup_filter (l : List RawItem) (h : String) :
    (dedup l).filter (fun z => identity z.toDict == h) =
      (l.filter (fun z => identity z.toDict == h)).take 1 :=
  dedupAux_filter_of_not_mem (List.not_mem_nil h) l

/-! Feed failures: a `none` parse result contributes nothing to the batch. -/

theorem collect_skip (pd : String → Option String) (now : String)
    (fs gs : List (String × Option Feed)) (u : String) :
    collect pd now (fs ++ (u, none) :: gs) = collect pd now (fs ++ gs) := by
  induction fs with
  | nil => rfl
  | cons f fs ih =>
    simp only [collect, List.foldr_cons, List.cons_append] at *
    rw [ih]

/-! Determinism of the batch in the run timestamp, absent the
current-time fallback of `norm_dt`. -/

theorem norm_dt_eq_of_resolves {pd : String → Option String} {e : Entry}
    (h : resolvesDate pd e = true) (t₁ t₂ : String) :
    norm_dt pd t₁ e = norm_dt pd t₂ e := by
  unfold norm_dt
  unfold resolvesDate at h
  cases hc : dtChain pd e with
  | none => rw [hc] at h; simp at h
  | some v => rfl

theorem normalize_eq_of_resolves {pd : String → Option String} {e : Entry}
    (h : resolvesDate pd e = true) (t₁ t₂ : String) (src : String) :
    normalize pd t₁ src e = normalize pd t₂ src e := by
  unfold normalize
  rw [norm_dt_eq_of_resolves h t₁ t₂]

/-- Whether every entry of every successfully parsed feed resolves its
timestamp from entry fields (the `datetime.now` fallback is never hit). -/
def allResolve (pd : String → Option String) (feeds : List (String × Option Feed)) : Bool :=
  feeds.all (fun p =>
    match p.2 with
    | none => true
    | some f => f.entries.all (resolvesDate pd))

theorem collect_eq_of_allResolve {pd : String → Option String}
    {feeds : List (String × Option Feed)} (h : allResolve pd feeds = true) (t₁ t₂ : String) :
    collect pd t₁ feeds = collect pd t₂ feeds := by
  induction feeds with
  | nil => rfl
  | cons p ps ih =>
    rw [allResolve, List.all_cons, Bool.and_eq_true] at h
    have tail := ih h.2
    cases hp : p.2 with
    | none =>
      simp only [collect, List.foldr_cons, hp] at tail ⊢
      exact tail
    | some f =>
      have hmap : f.entries.map (normalize pd t₁ (f.title.getD p.1)) =
          f.entries.map (normalize pd t₂ (f.title.getD p.1)) := by
        apply List.map_congr_left
        intro e he
        rw [hp] at h
        exact normalize_eq_of_resolves (List.all_eq_true.mp h.1 e he) t₁ t₂ _
      simp only [collect, List.foldr_cons, hp] at tail ⊢
      rw [hmap, tail]

/-! With no catalog, enrichment always yields the unknown sentinels. -/

theorem formatItem_empty_country (it : TransItem) :
    (formatItem [] [] it).country = "不明" ∧ (formatItem [] [] it).continent = "不明" := by
  simp [formatItem, enrich_from_catalog_empty, orSent]

/-! Size bookkeeping through the pipeline tail. -/

theorem emitStage_items (cfg : Config) (detect : String → Option String)
    (api : String → Option (Option String)) (dm nm : AListRow) (now : String)
    (uniq : List RawItem) :
    (emitStage cfg detect api dm nm now uniq).items =
      ((sortDesc uniq).take 1000).map
        (fun it => formatItem dm nm (translateItem cfg detect api it)) := by
  simp [emitStage, serialize, List.map_take, List.map_map, Function.comp_def]

theorem emitStage_count (cfg : Config) (detect : String → Option String)
    (api : String → Option (Option String)) (dm nm : AListRow) (now : String)
    (uniq : List RawItem) :
    (emitStage cfg detect api dm nm now uniq).count = uniq.length := by
  simp [emitStage, serialize, length_sortDesc]

theorem emitStage_items_length (cfg : Config) (detect : String → Option String)
    (api : String → Option (Option String)) (dm nm : AListRow) (now : String)
    (uniq : List RawItem) :
    (emitStage cfg detect api dm nm now uniq).items.length = min uniq.length 1000 := by
  rw [emitStage_items]
  simp [length_sortDesc, Nat.min_comm]

/-! The claims -/

/-- C10: every item dict handed to deduplication carries exactly the keys
source, title, summary, link, published, category and never an `id` key,
so the identity hash is the SHA-256 of the link when the link is
non-empty and of title ++ source otherwise; the `id` branch of
`identity` is unreachable. -/
theorem C10_dedup_dict_shape (it : RawItem) :
    it.toDict.map Prod.fst = ["source", "title", "summary", "link", "published", "category"] ∧
    Dict.get? it.toDict "id" = none ∧
    identity it.toDict = sha256Hex (if it.link = "" then it.title ++ it.source else it.link) :=
  ⟨rfl, rfl, identity_toDict_eq it⟩

/-- C9: a feed URL whose fetch or parse fails contributes no items and
does not abort the run: the emitted document is exactly that of the run
on the remaining feed URLs. -/
theorem C9_failed_feed_skipped (cfg : Config) (pd detect : String → Option String)
    (api : String → Option (Option String)) (now : String)
    (fs gs : List (String × Option Feed)) (u : String) (catalog : Option (List Row)) :
    pipeline cfg pd detect api now (fs ++ (u, none) :: gs) catalog =
      pipeline cfg pd detect api now (fs ++ gs) catalog := by
  simp only [pipeline, collect_skip]

/-- C1 is false as stated: with 1001 formatted items, the document's
`count` is 1001 while its `items` array is truncated to 1000 entries. -/
theorem C1_counterexample :
    (serialize {} "T" (List.replicate 1001 {})).count ≠
      (serialize {} "T" (List.replicate 1001 {})).items.length := by
  have h1 : (serialize ({} : Config) "T" (List.replicate 1001 ({} : OutItem))).count = 1001 := by
    simp [serialize]
  have h2 : (serialize ({} : Config) "T"
      (List.replicate 1001 ({} : OutItem))).items.length = 1000 := by
    simp [serialize, List.length_take]
  rw [h1, h2]
  omega

/-- C1 amended: `count` is the number of unique aggregated items (before
the cap), `items` holds at most 1000 of them, and `count` equals the
number of entries of `items` exactly when at most 1000 unique items were
aggregated. -/
theorem C1_amended_count (cfg : Config) (pd detect : String → Option String)
    (api : String → Option (Option String)) (now : String)
    (feeds : List (String × Option Feed)) (catalog : Option (List Row)) :
    (pipeline cfg pd detect api now feeds catalog).count =
        (dedup (collect pd now feeds)).length ∧
    (pipeline cfg pd detect api now feeds catalog).items.length =
        min (dedup (collect pd now feeds)).length 1000 ∧
    ((pipeline cfg pd detect api now feeds catalog).count =
        (pipeline cfg pd detect api now feeds catalog).items.length ↔
      (dedup (collect pd now feeds)).length ≤ 1000) := by
  simp only [pipeline]
  refine ⟨emitStage_count .., emitStage_items_length .., ?_⟩
  rw [emitStage_count, emitStage_items_length]
  omega

/-- A `.jp`-domain item and a `.com`-domain item, as they reach the
formatting stage of a translation-disabled run. -/
def jpItem : TransItem := { source := "Some JP Site", title := "t", link := "http://example.jp/a" }

def comItem : TransItem := { source := "Some US Site", title := "t", link := "http://example.com/b" }

/-- C2 is false as stated: the code contains no TLD table, so with no
catalog a `.jp` link resolves to the very same unknown sentinel pair as a
`.com` link, not to a Japan-specific entry. -/
theorem C2_counterexample :
    ((formatItem [] [] jpItem).country, (formatItem [] [] jpItem).continent) = ("不明", "不明") ∧
    ((formatItem [] [] comItem).country, (formatItem [] [] comItem).continent) =
      ("不明", "不明") := by
  refine ⟨?_, ?_⟩ <;>
    simp [formatItem, enrich_from_catalog_empty, orSent]

/-- C2 amended: when no catalog file is configured there is no TLD
heuristic at all: `enrich_from_catalog` answers four `None`s for every
source name and link, and every emitted item carries the unknown sentinel
country/continent pair `"不明"`, whatever the link's TLD. -/
theorem C2_amended_no_tld (cfg : Config) (pd detect : String → Option String)
    (api : String → Option (Option String)) (now : String)
    (feeds : List (String × Option Feed)) :
    load_source_catalog none = ([], []) ∧
    (∀ src link, enrich_from_catalog src link [] [] = (none, none, none, none)) ∧
    ((pipeline cfg pd detect api now feeds none).items.all
      (fun o => o.country == "不明" && o.continent == "不明")) = true := by
  refine ⟨rfl, fun src link => enrich_from_catalog_empty src link, ?_⟩
  simp only [pipeline, load_source_catalog, emitStage_items, List.all_eq_true]
  intro o ho
  rcases List.mem_map.mp ho with ⟨it, _, rfl⟩
  have h := formatItem_empty_country (translateItem cfg detect api it)
  simp [h.1, h.2]

/-- Two raw entries with identical (empty) links but different titles. -/
def linkA : RawItem := { source := "s", title := "a", link := "" }

def linkB : RawItem := { source := "s", title := "b", link := "" }

/-- C3 is false as stated: two raw entries with identical links both
survive deduplication when the shared link is empty, because the identity
hash then falls back to title ++ source, which differ. -/
theorem C3_counterexample :
    linkA.link = linkB.link ∧ (dedup [linkA, linkB]).length = 2 := by
  refine ⟨rfl, ?_⟩
  decide

/-- C3 amended: for raw entries with identical non-empty links the
identity hashes coincide, and of all the entries of the batch carrying
that identity exactly one survives deduplication: the first encountered
in pre-sort fetch order (identity = SHA-256 of link if non-empty, else id
if present, else title ++ source, and the normalised dicts carry no id). -/
theorem C3_amended_dedup (l₁ l₂ l₃ : List RawItem) (x y : RawItem)
    (hxy : x.link = y.link) (hne : x.link ≠ "") :
    identity y.toDict = identity x.toDict ∧
    ((dedup (l₁ ++ x :: l₂ ++ y :: l₃)).filter
        (fun z => identity z.toDict == identity x.toDict)).length = 1 ∧
    (dedup (l₁ ++ x :: l₂ ++ y :: l₃)).filter
        (fun z => identity z.toDict == identity x.toDict) =
      ((l₁ ++ x :: l₂ ++ y :: l₃).filter
        (fun z => identity z.toDict == identity x.toDict)).take 1 := by
  have hid : identity y.toDict = identity x.toDict := by
    rw [identity_toDict_eq x, identity_toDict_eq y, ← hxy, if_neg hne, if_neg hne]
  have hfilter := dedup_filter (l₁ ++ x :: l₂ ++ y :: l₃) (identity x.toDict)
  refine ⟨hid, ?_, hfilter⟩
  rw [hfilter]
  have hx : x ∈ (l₁ ++ x :: l₂ ++ y :: l₃).filter
      (fun z => identity z.toDict == identity x.toDict) :=
    List.mem_filter.mpr ⟨by simp, by simp⟩
  rcases List.ne_nil_of_mem hx with h
  cases hm : (l₁ ++ x :: l₂ ++ y :: l₃).filter
      (fun z => identity z.toDict == identity x.toDict) with
  | nil => exact absurd hm h
  | cons a as => simp [hm]

/-- The first and second entries of the C3 witness batch: same non-empty
link, different titles and sources. -/
def wxItem : RawItem := { source := "s1", title := "first", link := "http://x/a" }

def wyItem : RawItem := { source := "s2", title := "second", link := "http://x/a" }

theorem C3_witness :
    wxItem.link = wyItem.link ∧ wxItem.link ≠ "" ∧
    ((dedup [wxItem, wyItem]).filter
      (fun z => identity z.toDict == identity wxItem.toDict)).length = 1 :=
  ⟨rfl, by decide, (C3_amended_dedup [] [] [] wxItem wyItem rfl (by decide)).2.1⟩

/-- C4: the emitted items are sorted by the `published` string
descending — whenever A precedes B in `items`, B.published ≤ A.published,
so any A with A.published > B.published comes first — and the sort is
stable: each class of equal `published` keeps its pre-sort relative
order. -/
theorem C4_sorted_published_desc (cfg : Config) (pd detect : String → Option String)
    (api : String → Option (Option String)) (now : String)
    (feeds : List (String × Option Feed)) (catalog : Option (List Row)) :
    (pipeline cfg pd detect api now feeds catalog).items.Pairwise
        (fun a b => b.published ≤ a.published) ∧
    ∀ p : String,
      (sortDesc (dedup (collect pd now feeds))).filter (fun z => z.published == p) =
        (dedup (collect pd now feeds)).filter (fun z => z.published == p) := by
  refine ⟨?_, fun p => filter_sortDesc _ p⟩
  have hp : DescBy ((sortDesc (dedup (collect pd now feeds))).take 1000) :=
    List.Pairwise.sublist (List.take_sublist _ _) (pairwise_sortDesc _)
  simp only [pipeline, emitStage_items]
  rw [List.pairwise_map]
  exact hp.imp (fun {a b} h => not_lt.mp h)

/-- C5: a run whose deduplicated batch exceeds 1000 items emits exactly
1000 entries, and they are the 1000 most recent: every sorted item left
out has `published` ≤ that of every emitted item. -/
theorem C5_cap_keeps_most_recent (cfg : Config) (detect : String → Option String)
    (api : String → Option (Option String)) (dm nm : AListRow) (now : String)
    (uniq : List RawItem) (hlen : 1000 < uniq.length) :
    (emitStage cfg detect api dm nm now uniq).items.length = 1000 ∧
    ∀ x ∈ (emitStage cfg detect api dm nm now uniq).items,
      ∀ y ∈ (sortDesc uniq).drop 1000, y.published ≤ x.published := by
  constructor
  · rw [emitStage_items_length]
    exact Nat.min_eq_right (le_of_lt hlen)
  · intro x hx y hy
    rw [emitStage_items] at hx
    rcases List.mem_map.mp hx with ⟨s, hs, rfl⟩
    have hsorted := pairwise_sortDesc uniq
    have hsplit := List.take_append_drop 1000 (sortDesc uniq)
    rw [DescBy, ← hsplit, List.pairwise_append] at hsorted
    have := hsorted.2.2 s hs y hy
    exact not_lt.mp this

theorem C5_witness :
    1000 < (mkItems 1001).length ∧
    (emitStage {} noParse noApi [] [] "T" (mkItems 1001)).items.length = 1000 :=
  ⟨by simp [mkItems],
   (C5_cap_keeps_most_recent {} noParse noApi [] [] "T" (mkItems 1001)
      (by simp [mkItems])).1⟩

/-- A feed entry carrying no usable date information. -/
def datelessEntry : Entry := { title := some "T", link := some "http://x/a" }

def feeds0 : List (String × Option Feed) :=
  [("http://feed", some { title := some "Src", entries := [datelessEntry] })]

/-- C6 is false as stated: when an entry's date cannot be resolved,
`norm_dt` stamps it with the run's current time, so two
translation-disabled runs on identical feeds and catalog differ in their
`items` (the `published` fields), not only in `generated_at`. -/
theorem C6_counterexample :
    (pipeline {} noParse noParse noApi "2024-01-01T00:00:00+00:00" feeds0 none).items ≠
      (pipeline {} noParse noParse noApi "2024-01-02T00:00:00+00:00" feeds0 none).items := by
  decide

/-- C6 amended: two translation-disabled runs on identical feed content,
identical catalog and identical oracle behaviour agree on everything but
`generated_at`, provided every entry's timestamp resolves from its own
fields (the current-time fallback of `norm_dt` is never hit). -/
theorem C6_amended_determinism (cfg : Config) (pd detect : String → Option String)
    (api : String → Option (Option String)) (t₁ t₂ : String)
    (feeds : List (String × Option Feed)) (catalog : Option (List Row))
    (_hlt : cfg.ltUrl = "") (hres : allResolve pd feeds = true) :
    (pipeline cfg pd detect api t₁ feeds catalog).target_lang =
      (pipeline cfg pd detect api t₂ feeds catalog).target_lang ∧
    (pipeline cfg pd detect api t₁ feeds catalog).count =
      (pipeline cfg pd detect api t₂ feeds catalog).count ∧
    (pipeline cfg pd detect api t₁ feeds catalog).items =
      (pipeline cfg pd detect api t₂ feeds catalog).items := by
  have hc := collect_eq_of_allResolve hres t₁ t₂
  simp only [pipeline, hc]
  exact ⟨rfl, rfl, rfl⟩

/-- A feed entry with a resolvable published date. -/
def datedEntry : Entry :=
  { title := some "T", link := some "http://x/a", published := some "2024-03-04" }

def pdFixed : String → Option String := fun _ => some "2024-03-04T00:00:00+00:00"

def feeds1 : List (String × Option Feed) :=
  [("http://feed", some { title := some "Src", entries := [datedEntry] })]

theorem C6_witness :
    ({} : Config).ltUrl = "" ∧ allResolve pdFixed feeds1 = true ∧
    (pipeline {} pdFixed noParse noApi "A" feeds1 none).items =
      (pipeline {} pdFixed noParse noApi "B" feeds1 none).items :=
  ⟨rfl, by decide,
   (C6_amended_determinism {} pdFixed noParse noApi "A" "B" feeds1 none rfl (by decide)).2.2⟩

/-- C7: for a non-empty title whose detected language equals the
configured target, `maybe_translate` short-circuits — it returns the
original text with the detected language and performs no network call —
and the emitted item's `title_translated` equals its `title`. -/
theorem C7_translate_short_circuit (cfg : Config) (detect : String → Option String)
    (api : String → Option (Option String)) (dm nm : AListRow) (it : RawItem)
    (hne : it.title ≠ "") (hurl : cfg.ltUrl ≠ "")
    (hdet : detect it.title = some cfg.targetLang) :
    maybe_translate cfg detect api it.title none = (it.title, some cfg.targetLang, false) ∧
    (formatItem dm nm (translateItem cfg detect api it)).title_translated = it.title := by
  have h1 : maybe_translate cfg detect api it.title none =
      (it.title, some cfg.targetLang, false) := by
    unfold maybe_translate
    rw [if_neg (by simp [hne, hurl])]
    simp [pyOrOpt, hdet]
  refine ⟨h1, ?_⟩
  simp [formatItem, translateItem, h1, pyOr]

def cfgW : Config := { targetLang := "ja", ltUrl := "http://lt.example", ltApiKey := "" }

def detectJa : String → Option String := fun _ => some "ja"

def titledItem : RawItem := { source := "s", title := "こんにちは", link := "http://x/a" }

theorem C7_witness :
    titledItem.title ≠ "" ∧ cfgW.ltUrl ≠ "" ∧
    detectJa titledItem.title = some cfgW.targetLang ∧
    maybe_translate cfgW detectJa noApi titledItem.title none =
      (titledItem.title, some cfgW.targetLang, false) :=
  ⟨by decide, by decide, rfl,
   (C7_translate_short_circuit cfgW detectJa noApi [] [] titledItem
      (by decide) (by decide) rfl).1⟩

/-- The stripped length of a string. -/
def spacedTitle : String := "a" ++ ⟨List.replicate 220 ' '⟩

/-- C8 is false as stated: this 221-character title strips to a single
character, so it is stored as `"a"`, not as its first 219 characters plus
an ellipsis. -/
theorem C8_counterexample :
    220 < spacedTitle.length ∧ clamp spacedTitle 220 = "a" ∧
    clamp spacedTitle 220 ≠ ⟨spacedTitle.data.take 219⟩ ++ "…" := by
  refine ⟨by decide, by decide, by decide⟩

/-- C8 amended: clamping measures the whitespace-stripped title: when the
stripped title exceeds 220 characters the stored title is its first 219
characters plus an ellipsis (length exactly 220); when it does not, the
stored title is the stripped title; the stored length never exceeds
220. -/
theorem C8_amended_clamp (s : String) :
    (220 < (pyStrip s).length →
      clamp s 220 = ⟨(pyStrip s).data.take 219⟩ ++ "…" ∧ (clamp s 220).length = 220) ∧
    ((pyStrip s).length ≤ 220 → clamp s 220 = pyStrip s) ∧
    (clamp s 220).length ≤ 220 := by
  unfold clamp
  by_cases h : (pyStrip s).length ≤ 220
  · rw [if_pos h]
    exact ⟨fun hgt => absurd h (not_le.mpr hgt), fun _ => rfl, h⟩
  · rw [if_neg h]
    have hd : 220 < (pyStrip s).data.length := by
      have := not_le.mp h
      rwa [string_length_data] at this
    have h219 : (String.mk ((pyStrip s).data.take 219)).length = 219 := by
      rw [string_mk_length, List.length_take]
      omega
    have hlen : (⟨(pyStrip s).data.take 219⟩ ++ "…" : String).length = 220 := by
      rw [String.length_append, h219]
      decide
    exact ⟨fun _ => ⟨rfl, hlen⟩, fun hle => absurd hle h, le_of_eq hlen⟩

def longTitle : String := ⟨List.replicate 230 'a'⟩

theorem C8_witness :
    220 < (pyStrip longTitle).length ∧
    clamp longTitle 220 = ⟨(pyStrip longTitle).data.take 219⟩ ++ "…" :=
  ⟨by decide, ((C8_amended_clamp longTitle).1 (by decide)).1⟩

